import Mathlib

/-!
Verification of the sleeper-league-chat service against its specification.

Python strings are modelled as `List Char` (one element per code point, so
`len` is `List.length`), JSON-ish Python values as the inductive `PyVal`,
dictionaries as association lists, and fallible functions as `Except`.
Wall-clock timestamps are modelled as rationals (seconds).  External I/O
(the OpenAI completion, Supabase fetches) is abstracted by passing the
fetched rows / completion text as explicit parameters; every piece of pure
logic is translated directly from the corresponding Python source.
-/

/-! ## Python string primitives (src/validators.py, src/dynamic_queries.py) -/

/-- Characters stripped by Python's `str.strip()` with no arguments. -/
def isPySpace (c : Char) : Bool :=
  c = ' ' || c = '\t' || c = '\n' || c = '\r' || c = '\x0b' || c = '\x0c'

/-- Python `s.strip()`: drop leading and trailing whitespace. -/
def pyStrip (s : List Char) : List Char :=
  ((s.dropWhile isPySpace).reverse.dropWhile isPySpace).reverse

/-- Python `s.lower()` (modelled with `Char.toLower`). -/
def pyLower (s : List Char) : List Char :=
  s.map Char.toLower

/-- Values a JSON request field can hold: a string, an integer, or `None`. -/
inductive PyVal where
  | str (s : List Char)
  | int (n : Int)
  | pyNone
deriving DecidableEq

/-- Python truthiness for `PyVal` (`if not value: ...`). -/
def PyVal.truthy : PyVal → Bool
  | .str s => !s.isEmpty
  | .int n => n != 0
  | .pyNone => false

/-! ## Request validation (src/validators.py) -/

/-- Validation failure carrying the user-facing message and the field name,
mirroring the `ValidationError` exception class. -/
structure ValidationError where
  message : String
  field : Option String
deriving DecidableEq

/-- Translation of `validate_string` (src/validators.py lines 19-53):
type check, emptiness-after-strip check, then length bounds on the
*untrimmed* value; on success the stripped value is returned. -/
def validate_string (value : PyVal) (field_name : String)
    (min_length : Nat) (max_length : Nat) : Except ValidationError (List Char) :=
  match value with
  | .str s =>
    if s = [] ∨ pyStrip s = [] then
      .error ⟨field_name ++ " cannot be empty", some field_name⟩
    else if s.length < min_length then
      .error ⟨field_name ++ " must be at least " ++ toString min_length ++ " characters",
              some field_name⟩
    else if max_length < s.length then
      .error ⟨field_name ++ " must be at most " ++ toString max_length ++ " characters",
              some field_name⟩
    else
      .ok (pyStrip s)
  | _ => .error ⟨field_name ++ " must be a string", some field_name⟩

/-- Translation of `validate_session_id` (src/validators.py lines 56-72):
a falsy or absent session id becomes `"default"`, otherwise the generic
string validator runs with bounds 1 and 100. -/
def validate_session_id (session_id : Option PyVal) : Except ValidationError (List Char) :=
  match session_id with
  | Option.none => .ok "default".data
  | some v =>
    if v.truthy = false then .ok "default".data
    else validate_string v "session_id" 1 100

/-- Validated output of the chat-request validator. -/
structure ChatRequestData where
  message : List Char
  session_id : List Char
deriving DecidableEq

/-- Translation of `validate_chat_request` (src/validators.py lines 75-101).
An absent or empty body fails; a missing or falsy `message` fails with
"Message is required"; otherwise `validate_string` runs with bounds 1 and
5000 and the session id is validated. -/
def validate_chat_request (data : Option (List (String × PyVal))) :
    Except ValidationError ChatRequestData :=
  match data with
  | Option.none => .error ⟨"Request body is required", Option.none⟩
  | some d =>
    if d = [] then .error ⟨"Request body is required", Option.none⟩
    else
      match d.lookup "message" with
      | Option.none => .error ⟨"Message is required", some "message"⟩
      | some m =>
        if m.truthy = false then .error ⟨"Message is required", some "message"⟩
        else
          match validate_string m "message" 1 5000 with
          | .error e => .error e
          | .ok vm =>
            match validate_session_id (d.lookup "session_id") with
            | .error e => .error e
            | .ok sid => .ok ⟨vm, sid⟩

/-! ## Season inference (src/external_stats.py) -/

/-- Translation of `get_current_nfl_season` (src/external_stats.py lines
23-34), with the current date abstracted to its year and month. -/
def get_current_nfl_season (year : Int) (month : Nat) : Int :=
  if 9 ≤ month then year else year - 1

/-! ## Conversation store and chat/reset handlers (src/fantasy_assistant.py,
src/api_server.py) -/

/-- Conversation message with its role, as stored in a session's history. -/
inductive Msg where
  | system (content : String)
  | user (content : String)
  | assistant (content : String)
deriving DecidableEq

/-- Role string of a stored message (the dictionary's "role" value). -/
def Msg.role : Msg → String
  | .system _ => "system"
  | .user _ => "user"
  | .assistant _ => "assistant"

/-- Stand-in for the `SYSTEM_PROMPT` constant of src/fantasy_assistant.py
(its full text plays no role in any claim; only the fact that a fresh
history starts with exactly one system message matters). -/
def SYSTEM_PROMPT : String :=
  "You are a helpful assistant for the Dynasty Reloaded fantasy football league."

/-- Translation of `chat` (src/fantasy_assistant.py lines 153-233) on the
path with no tool calls: a fresh history is seeded with the system prompt,
the user message is appended, and the assistant reply (the OpenAI
completion, abstracted as the `assistant_reply` parameter) is appended;
the reply text and the updated history are returned. -/
def chat (message : String) (assistant_reply : String)
    (conversation_history : Option (List Msg)) : String × List Msg :=
  let h := match conversation_history with
    | Option.none => [Msg.system SYSTEM_PROMPT]
    | some hist => hist
  let h2 := h ++ [Msg.user message]
  (assistant_reply, h2 ++ [Msg.assistant assistant_reply])

/-- The per-session conversation store (`conversations` dict of
src/api_server.py), modelled as a map from session id to stored history. -/
def emptyConversations : String → Option (List Msg) := fun _ => Option.none

/-- Body of a successful `/api/chat` response. -/
structure ChatResponse where
  response : String
  session_id : String
  message_count : Nat
deriving DecidableEq

/-- Translation of `chat_endpoint` (src/api_server.py lines 91-156): look
up the session's history, run `chat`, store the updated history, and count
the stored messages whose role is "user" or "assistant". -/
def chat_endpoint (conversations : String → Option (List Msg))
    (session_id : String) (message : String) (assistant_reply : String) :
    ChatResponse × (String → Option (List Msg)) :=
  let conversation_history := conversations session_id
  let r := chat message assistant_reply conversation_history
  let updated_history := r.2
  let conversations2 : String → Option (List Msg) :=
    fun k => if k = session_id then some updated_history else conversations k
  let message_count :=
    updated_history.countP (fun m => m.role == "user" || m.role == "assistant")
  (⟨r.1, session_id, message_count⟩, conversations2)

/-- Outcome of the `/api/reset` handler. -/
inductive ResetResult where
  | ok (message : String) (session_id : String) (messages_cleared : Nat)
  | badRequest (error : String)
deriving DecidableEq

/-- Translation of `reset_conversation` (src/api_server.py lines 159-206)
for a string session id (non-string ids are rejected earlier in the
handler): ids longer than 100 characters get a 400 error; otherwise the
session's entry, if present, is deleted and its *full* stored length
(system messages included) is reported as `messages_cleared`. -/
def reset_conversation (conversations : String → Option (List Msg))
    (session_id : String) : ResetResult × (String → Option (List Msg)) :=
  if 100 < session_id.length then
    (.badRequest "session_id too long (max 100 chars)", conversations)
  else
    match conversations session_id with
    | some msgs =>
      (.ok "Conversation reset successfully" session_id msgs.length,
       fun k => if k = session_id then Option.none else conversations k)
    | Option.none =>
      (.ok "Conversation reset successfully" session_id 0, conversations)

/-! ## Rate limiter (src/middleware.py) -/

/-- Python `int()` truncation toward zero, applied to a rational number of
seconds (`.total_seconds()` of a timedelta). -/
def truncInt (q : ℚ) : Int := if 0 ≤ q then ⌊q⌋ else ⌈q⌉

/-- Pruning step of the `rate_limit` wrapper (src/middleware.py lines
66-72): only timestamps strictly newer than `now - window_seconds`
survive. -/
def pruneWindow (window_seconds now : ℚ) (bucket : List ℚ) : List ℚ :=
  bucket.filter (fun req_time => decide (now - window_seconds < req_time))

/-- Outcome of one pass through the `rate_limit` wrapper.  `rejected ra`
stands for the HTTP 429 response whose body and `Retry-After` header carry
`ra = max(retry_after, 1)`; `indexError` marks the indexing crash Python
would hit with `max_requests = 0` (empty pruned bucket at `[0]`). -/
inductive RateOutcome where
  | allowed
  | rejected (retry_after : Int)
  | indexError
deriving DecidableEq

/-- Translation of one invocation of the `rate_limit` wrapper
(src/middleware.py lines 56-102) for a single rate key: prune the bucket,
reject with 429 when the surviving count reaches `max_requests` (storing
the pruned bucket), otherwise record `now` and run the handler. -/
def rate_limit_step (max_requests : Nat) (window_seconds now : ℚ)
    (bucket : List ℚ) : RateOutcome × List ℚ :=
  let pruned := pruneWindow window_seconds now bucket
  if max_requests ≤ pruned.length then
    match pruned.head? with
    | some oldest =>
      (.rejected (max (truncInt (oldest + window_seconds - now)) 1), pruned)
    | Option.none => (.indexError, pruned)
  else
    (.allowed, pruned ++ [now])

/-- Sequential processing of a series of requests from one client against
one rate key, threading the stored bucket through `rate_limit_step`. -/
def runRequests (max_requests : Nat) (window_seconds : ℚ) :
    List ℚ → List ℚ → List RateOutcome × List ℚ
  | [], bucket => ([], bucket)
  | now :: rest, bucket =>
    let r := rate_limit_step max_requests window_seconds now bucket
    let r2 := runRequests max_requests window_seconds rest r.2
    (r.1 :: r2.1, r2.2)

/-! ## Standings (src/league_queries.py) -/

/-- Database row of the `rosters` table joined with its `users` row (the
fields touched by `get_standings`). -/
structure DbRosterRow where
  roster_id : Int
  wins : Int
  losses : Int
  ties : Int
  fpts : Option Int
  fpts_decimal : Option Int
  fpts_against : Option Int
  fpts_against_decimal : Option Int
  display_name : Option String
  team_name : Option String
deriving DecidableEq

/-- Row as fetched by `get_standings` (src/league_queries.py lines 50-52):
the select string names `roster_id, wins, losses, ties, fpts,
fpts_against, users(display_name, team_name, avatar)` — `fpts_decimal` and
`fpts_against_decimal` are NOT among the selected columns, so the fetched
dictionary has no such keys. -/
structure FetchedStandingsRow where
  roster_id : Int
  wins : Int
  losses : Int
  ties : Int
  fpts : Option Int
  fpts_against : Option Int
  display_name : Option String
  team_name : Option String
deriving DecidableEq

/-- Column projection performed by the select string of `get_standings`. -/
def selectStandingsRow (r : DbRosterRow) : FetchedStandingsRow :=
  ⟨r.roster_id, r.wins, r.losses, r.ties, r.fpts, r.fpts_against,
   r.display_name, r.team_name⟩

/-- Resolution `user_data.get('team_name') or user_data.get('display_name',
'Unknown Team')`: a falsy (null or empty) team name falls back to the
display name.  The 'Unknown Team' default applies only when the key is
absent; both columns are always selected, so null (`Option.none`) is
passed through. -/
def resolveTeamName (team_name display_name : Option String) : Option String :=
  match team_name with
  | some t => if t ≠ "" then some t else display_name
  | Option.none => display_name

/-- Entry of the standings list built by `get_standings` (src/league_queries.py
lines 54-66). -/
structure StandingsEntry where
  roster_id : Int
  team_name : Option String
  display_name : Option String
  wins : Int
  losses : Int
  ties : Int
  points_for : ℚ
  points_against : ℚ
deriving DecidableEq

/-- Row-to-entry conversion of `get_standings`.  The code computes
`float(roster['fpts'] or 0) + (float(roster.get('fpts_decimal', 0) or 0) / 100)`,
but `fpts_decimal` is not among the selected columns, so the `.get` always
returns its default and the decimal contribution is the literal 0 / 100
(likewise for `fpts_against_decimal`). -/
def toStandingsEntry (r : FetchedStandingsRow) : StandingsEntry :=
  { roster_id := r.roster_id
    team_name := resolveTeamName r.team_name r.display_name
    display_name := r.display_name
    wins := r.wins
    losses := r.losses
    ties := r.ties
    points_for := ((r.fpts.getD 0 : Int) : ℚ) + (0 : ℚ) / 100
    points_against := ((r.fpts_against.getD 0 : Int) : ℚ) + (0 : ℚ) / 100 }

/-- Descending sort key of `standings.sort(key=lambda x, (x['wins'],
x['points_for']), reverse=True)`: a stands at-or-before b when its
(wins, points_for) pair is lexicographically at least b's. -/
def standingsKeyGe (a b : StandingsEntry) : Prop :=
  b.wins < a.wins ∨ (b.wins = a.wins ∧ b.points_for ≤ a.points_for)

instance : DecidableRel standingsKeyGe := fun a b => by
  unfold standingsKeyGe
  infer_instance

/-- Translation of `get_standings` (src/league_queries.py lines 30-70):
project the fetched columns, build the entries, and stably sort by wins
then points-for, both descending (Python `list.sort` is stable; insertion
sort with the non-strict descending key relation reproduces it). -/
def get_standings (rows : List DbRosterRow) : List StandingsEntry :=
  List.insertionSort standingsKeyGe ((rows.map selectStandingsRow).map toStandingsEntry)

/-! ## Health checks (src/health_checks.py) -/

/-- Health status constants of the `HealthStatus` class. -/
inductive HealthStatus where
  | healthy
  | degraded
  | unhealthy
deriving DecidableEq

/-- Result of one individual health check. -/
structure CheckResult where
  status : HealthStatus
  message : String
deriving DecidableEq

/-- Aggregation step of `run_all_health_checks` (src/health_checks.py
lines 206-214): unhealthy if any status is unhealthy, else degraded if any
is degraded, else healthy. -/
def overallStatus (statuses : List HealthStatus) : HealthStatus :=
  if statuses.any (fun s => s == .unhealthy) then .unhealthy
  else if statuses.any (fun s => s == .degraded) then .degraded
  else .healthy

/-- Translation of `run_all_health_checks` (src/health_checks.py lines
187-220), with the individual check results (which involve I/O) passed as
parameters: memory and disk are always included, database and openai only
when `include_external` is set. -/
def run_all_health_checks (memory disk database openai : CheckResult)
    (include_external : Bool) : HealthStatus × List CheckResult :=
  let checks := [memory, disk] ++ (if include_external then [database, openai] else [])
  (overallStatus (checks.map CheckResult.status), checks)

/-- Severity order on statuses: unhealthy > degraded > healthy. -/
def severity : HealthStatus → Nat
  | .healthy => 0
  | .degraded => 1
  | .unhealthy => 2

/-- Fixture roster row: wins 6, integer points 800, decimal hundredths 57. -/
def tieRowA : DbRosterRow :=
  ⟨1, 6, 1, 0, some 800, some 57, some 0, some 0, some "alice", some "Team A"⟩

/-- Fixture roster row: wins 6, integer points 800, decimal hundredths 99. -/
def tieRowB : DbRosterRow :=
  ⟨2, 6, 1, 0, some 800, some 99, some 0, some 0, some "bob", some "Team B"⟩

/-! ## Fuzzy team search (src/dynamic_queries.py, find_team_by_name) -/

/-- Python `s.split()` with no arguments: split on runs of whitespace,
discarding empty pieces. -/
def pySplitAux : List Char → List Char → List (List Char)
  | [], acc => if acc = [] then [] else [acc.reverse]
  | c :: rest, acc =>
    if isPySpace c then
      (if acc = [] then pySplitAux rest [] else acc.reverse :: pySplitAux rest [])
    else pySplitAux rest (c :: acc)

/-- Words of a Python string (`s.split()`). -/
def pySplit (s : List Char) : List (List Char) := pySplitAux s []

/-- Python substring test `small in big`. -/
def pyContains (small : List Char) : List Char → Bool
  | [] => small.isEmpty
  | c :: rest => small.isPrefixOf (c :: rest) || pyContains small rest

/-- Size of the intersection of two Python sets built from lists
(`len(set(a) & set(b))`). -/
def setInterCard (a b : List (List Char)) : Nat :=
  (a.dedup.filter (fun w => decide (w ∈ b))).length

/-- Python `set(s.replace(' ', ''))`: the distinct non-space characters. -/
def charSet (s : List Char) : List Char :=
  (s.filter (fun c => c != ' ')).dedup

/-- Match score of `find_team_by_name` (src/dynamic_queries.py lines
726-762) for one candidate, on the lowercased inputs: 100 for an exact
match of either name, 80 when either name contains the search term, 70
when the search term contains either name, `50 + 10 * overlap` for
shared-word overlap, else the character-overlap typo fallback
`int((overlap / len(search_chars)) * 100 * 0.4)` applied only when more
than 60% of the search characters occur in the team name.  The float
comparison and truncation are modelled exactly in integer arithmetic
(`> 60%` as `5 * overlap > 3 * len`, `int(… * 0.4)` as `40 * overlap / len`
with floor division): for integer inputs of this size the float
computation agrees. -/
def matchScore (search_lower team_name_lower display_name_lower : List Char) : Nat :=
  let score :=
    if search_lower = team_name_lower ∨ search_lower = display_name_lower then 100
    else if pyContains search_lower team_name_lower
        || pyContains search_lower display_name_lower then 80
    else if pyContains team_name_lower search_lower
        || pyContains display_name_lower search_lower then 70
    else
      let search_words := pySplit search_lower
      let team_overlap := setInterCard search_words (pySplit team_name_lower)
      let display_overlap := setInterCard search_words (pySplit display_name_lower)
      if 0 < team_overlap ∨ 0 < display_overlap then
        50 + max team_overlap display_overlap * 10
      else 0
  if score = 0 then
    let team_chars := charSet team_name_lower
    let search_chars := charSet search_lower
    if 0 < search_chars.length then
      let overlap := (search_chars.filter (fun c => decide (c ∈ team_chars))).length
      if 3 * search_chars.length < 5 * overlap then
        (40 * overlap) / search_chars.length
      else 0
    else 0
  else score

/-- Joined `users` record of a roster row. -/
structure SleeperUser where
  display_name : Option (List Char)
  team_name : Option (List Char)
deriving DecidableEq

/-- Roster row as fetched by `find_team_by_name` (src/dynamic_queries.py
lines 707-709). -/
structure RosterRow where
  roster_id : Int
  wins : Int
  losses : Int
  fpts : Option Int
  fpts_decimal : Option Int
  fpts_against : Option Int
  players : List String
  starters : List String
  reserve : List String
  taxi : List String
  users : SleeperUser
deriving DecidableEq

/-- Match score of a roster row for a search term: the search term is
lowercased and stripped once, the candidate names resolve a missing or
null value to the empty string (`.get('team_name', '') or ''`). -/
def rowScore (search : List Char) (r : RosterRow) : Nat :=
  let search_lower := pyStrip (pyLower search)
  matchScore search_lower (pyLower (r.users.team_name.getD []))
    (pyLower (r.users.display_name.getD []))

/-- Match entry appended for a candidate with positive score
(src/dynamic_queries.py lines 764-778). -/
structure TeamMatch where
  roster_id : Int
  team_name : List Char
  display_name : List Char
  wins : Int
  losses : Int
  fpts : ℚ
  fpts_against : ℚ
  players : List String
  starters : List String
  reserve : List String
  taxi : List String
  match_score : Nat
deriving DecidableEq

/-- Candidate-to-entry conversion: only candidates with a positive score
are kept. -/
def toTeamMatch (search : List Char) (r : RosterRow) : Option TeamMatch :=
  let score := rowScore search r
  if 0 < score then
    some { roster_id := r.roster_id
           team_name := r.users.team_name.getD []
           display_name := r.users.display_name.getD []
           wins := r.wins
           losses := r.losses
           fpts := ((r.fpts.getD 0 : Int) : ℚ) + ((r.fpts_decimal.getD 0 : Int) : ℚ) / 100
           fpts_against := ((r.fpts_against.getD 0 : Int) : ℚ)
           players := r.players
           starters := r.starters
           reserve := r.reserve
           taxi := r.taxi
           match_score := score }
  else Option.none

/-- Match entries of all candidate rows. -/
def teamMatches (search : List Char) (rows : List RosterRow) : List TeamMatch :=
  rows.filterMap (toTeamMatch search)

/-- Descending-score order used by `matches.sort(key=..., reverse=True)`. -/
def scoreGe (a b : TeamMatch) : Prop := b.match_score ≤ a.match_score

instance : DecidableRel scoreGe := fun a b => Nat.decLe b.match_score a.match_score

instance : IsTotal TeamMatch scoreGe := ⟨fun a b => le_total b.match_score a.match_score⟩

instance : IsTrans TeamMatch scoreGe := ⟨fun _ _ _ hab hbc => le_trans hbc hab⟩

/-- Matches sorted by score descending (Python's stable sort, reproduced
by insertion sort on the non-strict descending relation). -/
def sortedMatches (search : List Char) (rows : List RosterRow) : List TeamMatch :=
  List.insertionSort scoreGe (teamMatches search rows)

/-- Element of the list returned by `find_team_by_name`: either a match
entry or an error marker (a dict carrying an `error` key and possibly a
`suggestion`). -/
inductive TeamResult where
  | found (m : TeamMatch)
  | err (error : String) (suggestion : Option String)
deriving DecidableEq

/-- Translation of `find_team_by_name` (src/dynamic_queries.py lines
690-797) on the fetched rows: empty fetch and no-match cases return a
single error marker; otherwise the sorted matches are cut down to the top
three when the runner-up scores at least 80% of the best
(`matches[1]['match_score'] >= matches[0]['match_score'] * 0.8`, exactly
`8 * best ≤ 10 * second` on these integer scores), else to the single
best. -/
def find_team_by_name (rows : List RosterRow) (team_name_search : List Char) :
    List TeamResult :=
  if rows = [] then [TeamResult.err "No teams found in league" Option.none]
  else
    match sortedMatches team_name_search rows with
    | [] =>
      [TeamResult.err
        ("No team found matching \x27" ++ String.mk team_name_search ++ "\x27")
        (some "Try using a different name or check the standings")]
    | best :: rest =>
      match rest with
      | second :: _ =>
        if 8 * best.match_score ≤ 10 * second.match_score then
          ((best :: rest).take 3).map TeamResult.found
        else [TeamResult.found best]
      | [] => [TeamResult.found best]

/-- Fixture row for the team "The Jaxon 5". -/
def jaxRow : RosterRow :=
  ⟨1, 6, 1, some 889, some 64, some 886, [], [], [], [],
   ⟨some "jaxon".data, some "The Jaxon 5".data⟩⟩

/-! ## Trade reconstruction (src/dynamic_queries.py, get_recent_trades and
get_player_trade_history) -/

/-- Draft pick entry of a trade transaction: `roster_id` is the pick's
original owner, `owner_id` the roster receiving it. -/
structure TxDraftPick where
  season : String
  round : Nat
  roster_id : Option Int
  owner_id : Option Int
deriving DecidableEq

/-- Trade transaction as fetched from the `transactions` table
(`adds`/`drops` map player ids to roster ids; `or {}` / `or []` for null
columns is absorbed into the empty list). -/
structure SleeperTransaction where
  transaction_id : String
  week : Option Nat
  roster_ids : List Int
  adds : List (String × Int)
  drops : List (String × Int)
  draft_picks : List TxDraftPick
deriving DecidableEq

/-- Receiver recorded by `if pick.get('owner_id'): all_roster_ids.add(…)`:
Python truthiness skips both a missing owner and the integer 0. -/
def pickReceiver (p : TxDraftPick) : Option Int :=
  match p.owner_id with
  | some o => if o ≠ 0 then some o else Option.none
  | Option.none => Option.none

/-- Participant set of a trade (src/dynamic_queries.py lines 902-917 and
483-498): the recorded roster ids, every receiver in `adds`, every giver
in `drops`, and every pick receiver.  Python accumulates these in a set;
the set is modelled as a deduplicated list. -/
def allRosterIds (t : SleeperTransaction) : List Int :=
  (t.roster_ids ++ t.adds.map Prod.snd ++ t.drops.map Prod.snd
    ++ t.draft_picks.filterMap pickReceiver).dedup

/-- Rendered per-team entry of a trade. -/
structure TradeTeamEntry where
  team_name : String
  gave_up : List String
  received : List String
deriving DecidableEq

/-- Update of `teams_data[k]` in place (dict update: keys unchanged). -/
def updEntry (k : Int) (f : TradeTeamEntry → TradeTeamEntry) :
    List (Int × TradeTeamEntry) → List (Int × TradeTeamEntry)
  | [] => []
  | (k2, e) :: rest =>
    if k2 = k then (k2, f e) :: rest else (k2, e) :: updEntry k f rest

/-- Append to a team's `received` list. -/
def pushReceived (s : String) (e : TradeTeamEntry) : TradeTeamEntry :=
  { e with received := e.received ++ [s] }

/-- Append to a team's `gave_up` list. -/
def pushGaveUp (s : String) (e : TradeTeamEntry) : TradeTeamEntry :=
  { e with gave_up := e.gave_up ++ [s] }

/-- Rendered description of a traded draft pick
(`f"{pick_year} Round {pick_round} Pick (originally {original_owner}\x27s)"`;
when the draft in question has completed, a further database query may
extend the text with the drafted player, which does not affect which team
entries the string is attached to). -/
def pickStr (rosterMap : Int → String) (p : TxDraftPick) : String :=
  let original_owner := match p.roster_id with
    | some r => rosterMap r
    | Option.none => "Team None"
  p.season ++ " Round " ++ toString p.round ++ " Pick (originally "
    ++ original_owner ++ "\x27s)"

/-- Draft-pick pass of the trade rendering (src/dynamic_queries.py lines
947-1003 and 541-566): the receiver, when present among the participants,
records the pick as received; the giver is the sole other participant, or
the original owner when among the non-receivers, or the first
non-receiver. -/
def processPick (rosterMap : Int → String) (keys : List Int)
    (teams : List (Int × TradeTeamEntry)) (p : TxDraftPick) :
    List (Int × TradeTeamEntry) :=
  let ps := pickStr rosterMap p
  let teams2 := match p.owner_id with
    | some o => if o ∈ keys then updEntry o (pushReceived ps) teams else teams
    | Option.none => teams
  let giving_up_teams := keys.filter (fun rid =>
    match p.owner_id with
    | some o => rid != o
    | Option.none => true)
  match giving_up_teams with
  | [g] => updEntry g (pushGaveUp ps) teams2
  | g :: _ =>
    match p.roster_id with
    | some rf =>
      if rf ∈ giving_up_teams then updEntry rf (pushGaveUp ps) teams2
      else updEntry g (pushGaveUp ps) teams2
    | Option.none => updEntry g (pushGaveUp ps) teams2
  | [] => teams2

/-- Construction of `teams_data` shared by `get_recent_trades` (lines
919-1010) and `get_player_trade_history` (lines 513-573): one entry per
participant (a dict keyed by roster id), then the adds, drops and
draft-pick passes.  `rosterMap` models `roster_map.get(r, f"Team {r}")`
and `playerMap` the rendered player string (name plus optional position
and NFL team), both resolved from database fetches. -/
def buildTeamsData (rosterMap : Int → String) (playerMap : String → String)
    (t : SleeperTransaction) : List (Int × TradeTeamEntry) :=
  let keys := allRosterIds t
  let init := keys.map (fun r => (r, TradeTeamEntry.mk (rosterMap r) [] []))
  let withAdds := t.adds.foldl
    (fun ts kv =>
      if kv.2 ∈ keys then updEntry kv.2 (pushReceived (playerMap kv.1)) ts else ts)
    init
  let withDrops := t.drops.foldl
    (fun ts kv =>
      if kv.2 ∈ keys then updEntry kv.2 (pushGaveUp (playerMap kv.1)) ts else ts)
    withAdds
  t.draft_picks.foldl (fun ts p => processPick rosterMap keys ts p) withDrops

/-- Rendered team entries of one trade (`'teams': list(teams_data.values())`). -/
def tradeTeams (rosterMap : Int → String) (playerMap : String → String)
    (t : SleeperTransaction) : List TradeTeamEntry :=
  (buildTeamsData rosterMap playerMap t).map Prod.snd

/-! ## Evaluation lemmas for the chat-request validator -/

/-- Evaluation of the validator on a body holding a non-empty message
string: the result is determined by the strip and maximum-length checks of
`validate_string`. -/
theorem vcrMsgEval (s : List Char) (hnil : s ≠ []) :
    validate_chat_request (some [("message", PyVal.str s)])
      = if pyStrip s = [] then .error ⟨"message cannot be empty", some "message"⟩
        else if 5000 < s.length then
          .error ⟨"message must be at most 5000 characters", some "message"⟩
        else .ok ⟨pyStrip s, "default".data⟩ := by
  have htr : (PyVal.str s).truthy = true := by
    simp [PyVal.truthy, List.isEmpty_iff, hnil]
  have hlen1 : ¬ s.length < 1 := by
    have := List.length_pos.mpr hnil
    omega
  by_cases hstrip : pyStrip s = []
  · simp [validate_chat_request, List.lookup, htr, validate_string, hnil, hstrip]
  · by_cases hlong : 5000 < s.length
    · simp [validate_chat_request, List.lookup, htr, validate_string, hnil, hstrip,
        hlen1, hlong]
      rfl
    · simp [validate_chat_request, List.lookup, htr, validate_string, hnil, hstrip,
        hlen1, hlong, validate_session_id]

/-- Evaluation of the validator on a length-0 message: the falsy check in
`validate_chat_request` fires, so the error is "Message is required". -/
theorem vcrMsgNil :
    validate_chat_request (some [("message", PyVal.str [])])
      = .error ⟨"Message is required", some "message"⟩ := rfl

/-- `str.strip` of a run of spaces followed by other characters drops the
leading spaces. -/
theorem dropWhile_replicate_space (n : Nat) (l : List Char) :
    (List.replicate n ' ' ++ l).dropWhile isPySpace = l.dropWhile isPySpace := by
  induction n with
  | zero => simp
  | succ n ih =>
    rw [List.replicate_succ, List.cons_append, List.dropWhile_cons]
    simp [isPySpace, ih]

/-- Stripping the concrete 5001-character message used as the C1
counterexample yields the single character `x`. -/
theorem pyStrip_x_spaces : pyStrip ('x' :: List.replicate 5000 ' ') = ['x'] := by
  unfold pyStrip
  rw [List.dropWhile_cons]
  have hx : isPySpace 'x' = false := by decide
  rw [hx]
  simp only [Bool.false_eq_true, if_false, List.reverse_cons, List.reverse_replicate]
  rw [dropWhile_replicate_space 5000 ['x']]
  rfl

/-! ## Theorems and witnesses for C1 and C8 -/

/-- C1 counterexample: the claim as stated is false on the code.  A
length-0 message fails with "Message is required" (the falsy check in
`validate_chat_request` fires before `validate_string` can report
"cannot be empty"), and a 5001-character message whose trimmed form is the
single character `x` (trimmed length 1, inside the claimed 1..5000 range)
is rejected, because the maximum-length check runs on the untrimmed
value. -/
theorem validate_chat_request_claim_false :
    validate_chat_request (some [("message", PyVal.str [])])
      = .error ⟨"Message is required", some "message"⟩
    ∧ validate_chat_request (some [("message", PyVal.str ('x' :: List.replicate 5000 ' '))])
      = .error ⟨"message must be at most 5000 characters", some "message"⟩
    ∧ pyStrip ('x' :: List.replicate 5000 ' ') = ['x']
    ∧ ('x' :: List.replicate 5000 ' ').length = 5001 := by
  have hlen : ('x' :: List.replicate 5000 ' ').length = 5001 := by
    rw [List.length_cons, List.length_replicate]
  refine ⟨vcrMsgNil, ?_, pyStrip_x_spaces, hlen⟩
  rw [vcrMsgEval _ (List.cons_ne_nil _ _), pyStrip_x_spaces, hlen]
  norm_num

/-- C1 (amended): for a request whose body is exactly a `message` field
holding string `s`, validation succeeds (returning the trimmed message and
the default session id) exactly when `s` is non-empty, contains a
non-whitespace character, and its *untrimmed* length is at most 5000; a
length-0 message fails with "Message is required", a whitespace-only
message fails with "message cannot be empty", and a message longer than
5000 characters fails with "message must be at most 5000 characters". -/
theorem validate_chat_request_message_spec (s : List Char) :
    (validate_chat_request (some [("message", PyVal.str s)])
        = .ok ⟨pyStrip s, "default".data⟩
      ↔ (s ≠ [] ∧ pyStrip s ≠ [] ∧ s.length ≤ 5000))
    ∧ (s = [] →
        validate_chat_request (some [("message", PyVal.str s)])
          = .error ⟨"Message is required", some "message"⟩)
    ∧ (s ≠ [] → pyStrip s = [] →
        validate_chat_request (some [("message", PyVal.str s)])
          = .error ⟨"message cannot be empty", some "message"⟩)
    ∧ (s ≠ [] → pyStrip s ≠ [] → 5000 < s.length →
        validate_chat_request (some [("message", PyVal.str s)])
          = .error ⟨"message must be at most 5000 characters", some "message"⟩) := by
  by_cases hnil : s = []
  · subst hnil
    refine ⟨?_, fun _ => vcrMsgNil, fun h => absurd rfl h, fun h => absurd rfl h⟩
    rw [vcrMsgNil]
    constructor
    · intro h
      exact absurd h (by simp)
    · rintro ⟨h, -⟩
      exact absurd rfl h
  · by_cases hstrip : pyStrip s = []
    · have heval : validate_chat_request (some [("message", PyVal.str s)])
          = .error ⟨"message cannot be empty", some "message"⟩ := by
        rw [vcrMsgEval s hnil]
        simp [hstrip]
      refine ⟨?_, fun h => absurd h hnil, fun _ _ => heval, fun _ hs => absurd hstrip hs⟩
      rw [heval]
      constructor
      · intro h
        exact absurd h (by simp)
      · rintro ⟨-, h, -⟩
        exact absurd hstrip h
    · by_cases hlong : 5000 < s.length
      · have heval : validate_chat_request (some [("message", PyVal.str s)])
            = .error ⟨"message must be at most 5000 characters", some "message"⟩ := by
          rw [vcrMsgEval s hnil]
          simp [hstrip, hlong]
        refine ⟨?_, fun h => absurd h hnil, fun _ hs => absurd hs hstrip,
          fun _ _ _ => heval⟩
        rw [heval]
        constructor
        · intro h
          exact absurd h (by simp)
        · rintro ⟨-, -, h⟩
          omega
      · have heval : validate_chat_request (some [("message", PyVal.str s)])
            = .ok ⟨pyStrip s, "default".data⟩ := by
          rw [vcrMsgEval s hnil]
          simp [hstrip, hlong]
        refine ⟨?_, fun h => absurd h hnil, fun _ hs => absurd hs hstrip,
          fun _ _ hl => absurd hl hlong⟩
        rw [heval]
        exact ⟨fun _ => ⟨hnil, hstrip, by omega⟩, fun _ => rfl⟩

/-- C1 witness: the amended theorem applied at the concrete message "hi". -/
theorem validate_chat_request_message_spec_witness :
    validate_chat_request (some [("message", PyVal.str ['h', 'i'])])
      = .error ⟨"message cannot be empty", some "message"⟩ ∨
    (['h', 'i'] ≠ [] ∧ pyStrip ['h', 'i'] ≠ [] ∧ (['h', 'i'] : List Char).length ≤ 5000) :=
  Or.inr ((validate_chat_request_message_spec ['h', 'i']).1.mp rfl)

/-- C8: `get_current_nfl_season` returns the current calendar year when the
month is September (9) or later, and the previous calendar year for months
January (1) through August (8). -/
theorem get_current_nfl_season_spec (year : Int) (month : Nat) :
    (9 ≤ month → get_current_nfl_season year month = year)
    ∧ (1 ≤ month → month ≤ 8 → get_current_nfl_season year month = year - 1) := by
  constructor
  · intro h
    simp [get_current_nfl_season, h]
  · intro _ h8
    have : ¬ 9 ≤ month := by omega
    simp [get_current_nfl_season, this]

/-- C8 witness: in August 2025 the season is 2024, in September 2025 it is
2025. -/
theorem get_current_nfl_season_spec_witness :
    get_current_nfl_season 2025 8 = 2024 ∧ get_current_nfl_season 2025 9 = 2025 :=
  ⟨(get_current_nfl_season_spec 2025 8).2 (by decide) (by decide),
   (get_current_nfl_season_spec 2025 9).1 (by decide)⟩

/-! ## Theorems and witnesses for C2 and C10 -/

/-- C2 counterexample: after one successful exchange for the fresh session
"t1", the chat response's `message_count` is 2, but resetting "t1" reports
`messages_cleared` 3, not 2, because the stored history also contains the
seeded system-prompt message. -/
theorem chat_then_reset_claim_false :
    (chat_endpoint emptyConversations "t1" "Show me the current standings"
        "Here are the standings").1.message_count = 2
    ∧ (reset_conversation
        (chat_endpoint emptyConversations "t1" "Show me the current standings"
          "Here are the standings").2 "t1").1
        = .ok "Conversation reset successfully" "t1" 3
    ∧ (reset_conversation
        (chat_endpoint emptyConversations "t1" "Show me the current standings"
          "Here are the standings").2 "t1").1
        ≠ .ok "Conversation reset successfully" "t1" 2 := by
  refine ⟨rfl, rfl, ?_⟩
  intro h
  rw [show (reset_conversation
      (chat_endpoint emptyConversations "t1" "Show me the current standings"
        "Here are the standings").2 "t1").1
      = .ok "Conversation reset successfully" "t1" 3 from rfl] at h
  simp at h

/-- C2 (amended): after one successful chat exchange for a fresh session id
(one user turn, one assistant turn), the chat response's `message_count` is
2, and a subsequent reset call for that same session id returns
`messages_cleared` 3: the user and assistant turns plus the seeded
system-prompt message. -/
theorem chat_then_reset_message_counts (conversations : String → Option (List Msg))
    (session_id message reply : String)
    (hfresh : conversations session_id = Option.none)
    (hlen : session_id.length ≤ 100) :
    (chat_endpoint conversations session_id message reply).1.message_count = 2
    ∧ (reset_conversation
        (chat_endpoint conversations session_id message reply).2 session_id).1
        = .ok "Conversation reset successfully" session_id 3 := by
  have hnotlong : ¬ 100 < session_id.length := by omega
  constructor
  · simp [chat_endpoint, chat, hfresh, Msg.role]
  · simp [reset_conversation, chat_endpoint, chat, hfresh, hnotlong]

/-- C2 witness: the amended theorem applied at the fresh session "t1" of
the empty store. -/
theorem chat_then_reset_message_counts_witness :
    (chat_endpoint emptyConversations "t1" "Show me the current standings"
        "Here are the standings").1.message_count = 2
    ∧ (reset_conversation
        (chat_endpoint emptyConversations "t1" "Show me the current standings"
          "Here are the standings").2 "t1").1
        = .ok "Conversation reset successfully" "t1" 3 :=
  chat_then_reset_message_counts emptyConversations "t1"
    "Show me the current standings" "Here are the standings" rfl (by decide)

/-- C10 counterexample: the reset handler does not return success for
every session id with no stored history — a 101-character session id is
rejected with a 400 error ("session_id too long") even though the store is
untouched. -/
theorem reset_conversation_claim_false :
    (reset_conversation emptyConversations (String.mk (List.replicate 101 'a'))).1
      = .badRequest "session_id too long (max 100 chars)"
    ∧ emptyConversations (String.mk (List.replicate 101 'a')) = Option.none := by
  exact ⟨rfl, rfl⟩

/-- C10 (amended): for every session id S of length at most 100, the reset
handler removes at most the conversation-map entry for S — every other
session's stored history is left unchanged — and when S has no stored
history the entire conversation map is unchanged while the handler still
returns success with `messages_cleared` 0. -/
theorem reset_conversation_frame (conversations : String → Option (List Msg))
    (session_id : String) (hlen : session_id.length ≤ 100) :
    (∀ k, k ≠ session_id →
       (reset_conversation conversations session_id).2 k = conversations k)
    ∧ (conversations session_id = Option.none →
        (reset_conversation conversations session_id).2 = conversations
        ∧ (reset_conversation conversations session_id).1
            = .ok "Conversation reset successfully" session_id 0)
    ∧ (∀ msgs, conversations session_id = some msgs →
        (reset_conversation conversations session_id).2 session_id = Option.none) := by
  have hnotlong : ¬ 100 < session_id.length := by omega
  refine ⟨?_, ?_, ?_⟩
  · intro k hk
    simp only [reset_conversation, hnotlong, if_false]
    cases h : conversations session_id with
    | none => simp
    | some msgs => simp [hk]
  · intro hnone
    simp [reset_conversation, hnotlong, hnone]
  · intro msgs hmsgs
    simp [reset_conversation, hnotlong, hmsgs]

/-- C10 witness: the amended theorem applied to the empty store and the
session id "t9", which has no stored history. -/
theorem reset_conversation_frame_witness :
    (reset_conversation emptyConversations "t9").2 = emptyConversations
    ∧ (reset_conversation emptyConversations "t9").1
        = .ok "Conversation reset successfully" "t9" 0 :=
  (reset_conversation_frame emptyConversations "t9" (by decide)).2.1 rfl

/-! ## Lemmas about the rate limiter -/

/-- Pruning at a later time subsumes pruning at an earlier time: the
rejected-request state (the pruned bucket) behaves at every later instant
exactly like the original bucket. -/
theorem pruneWindow_pruneWindow (w now t : ℚ) (hle : now ≤ t) (b : List ℚ) :
    pruneWindow w t (pruneWindow w now b) = pruneWindow w t b := by
  unfold pruneWindow
  rw [List.filter_filter]
  apply List.filter_congr
  intro x _
  by_cases hx : t - w < x
  · have : now - w < x := by linarith
    simp [hx, this]
  · simp [hx]

/-- A bucket whose every entry is newer than `now - w` is untouched by
pruning. -/
theorem pruneWindow_eq_self (w now : ℚ) (b : List ℚ)
    (h : ∀ x ∈ b, now - w < x) :
    pruneWindow w now b = b := by
  unfold pruneWindow
  apply List.filter_eq_self.mpr
  intro x hx
  simpa using h x hx

/-- Core induction for the threshold claim: with `m + 1` requests left to
fill an `m`-request window during which nothing expires, all but the last
request are allowed and the last is rejected with a retry value of at
least 1. -/
theorem runRequests_fill (m : Nat) (w : ℚ) (hm : 0 < m) :
    ∀ (ts bucket : List ℚ),
      ts.length + bucket.length = m + 1 →
      ts ≠ [] →
      (∀ y ∈ ts, ∀ x ∈ bucket, y - w < x) →
      (∀ y ∈ ts, ∀ x ∈ ts, y - w < x) →
      ∃ ra, 1 ≤ ra ∧
        (runRequests m w ts bucket).1
          = List.replicate (ts.length - 1) RateOutcome.allowed
            ++ [RateOutcome.rejected ra] := by
  intro ts
  induction ts with
  | nil =>
    intro bucket _ hne _ _
    exact absurd rfl hne
  | cons t rest ih =>
    intro bucket hlen _ hbt hts
    have hpruned : pruneWindow w t bucket = bucket :=
      pruneWindow_eq_self w t bucket (fun x hx => hbt t (by simp) x hx)
    cases rest with
    | nil =>
      have hblen : bucket.length = m := by
        simp only [List.length_cons, List.length_nil] at hlen
        omega
      have hbne : bucket ≠ [] := by
        intro hb
        rw [hb] at hblen
        simp at hblen
        omega
      obtain ⟨oldest, rest2, hb⟩ := List.exists_cons_of_ne_nil hbne
      subst hb
      refine ⟨max (truncInt (oldest + w - t)) 1, le_max_right _ _, ?_⟩
      show (rate_limit_step m w t (oldest :: rest2)).1
          :: (runRequests m w [] (rate_limit_step m w t (oldest :: rest2)).2).1
          = _
      simp only [rate_limit_step, hpruned, hblen, le_refl, if_true, List.head?,
        runRequests]
      simp
    | cons t2 rest2 =>
      have hnot : ¬ m ≤ bucket.length := by
        simp only [List.length_cons] at hlen
        omega
      have hstep : rate_limit_step m w t bucket = (RateOutcome.allowed, bucket ++ [t]) := by
        simp only [rate_limit_step, hpruned, hnot, if_false]
      have hlen2 : (t2 :: rest2).length + (bucket ++ [t]).length = m + 1 := by
        simp only [List.length_cons, List.length_append, List.length_nil] at hlen ⊢
        omega
      have hbt2 : ∀ y ∈ t2 :: rest2, ∀ x ∈ bucket ++ [t], y - w < x := by
        intro y hy x hx
        rcases List.mem_append.mp hx with hx | hx
        · exact hbt y (List.mem_cons_of_mem _ hy) x hx
        · have hxt : x = t := by simpa using hx
          subst hxt
          exact hts y (List.mem_cons_of_mem _ hy) x (by simp)
      have hts2 : ∀ y ∈ t2 :: rest2, ∀ x ∈ t2 :: rest2, y - w < x := by
        intro y hy x hx
        exact hts y (List.mem_cons_of_mem _ hy) x (List.mem_cons_of_mem _ hx)
      obtain ⟨ra, hra, heq⟩ :=
        ih (bucket ++ [t]) hlen2 (by simp) hbt2 hts2
      refine ⟨ra, hra, ?_⟩
      show (rate_limit_step m w t bucket).1
          :: (runRequests m w (t2 :: rest2) (rate_limit_step m w t bucket).2).1
          = _
      rw [hstep]
      show RateOutcome.allowed :: (runRequests m w (t2 :: rest2) (bucket ++ [t])).1 = _
      rw [heq]
      simp [List.replicate_succ]

/-! ## Theorems and witnesses for C5 and C9 -/

/-- C5: for a route limited to 30 requests per 60-second window and a
fixed client, the 30th request inside the window is served (as are the 29
before it), and the 31st request, issued before any earlier timestamp
leaves the window, is rejected with HTTP 429 and a `Retry-After` value of
at least 1. -/
theorem rate_limit_threshold_spec (ts : List ℚ)
    (hlen : ts.length = 31)
    (hwin : ∀ x ∈ ts, ∀ y ∈ ts, x - 60 < y) :
    ∃ ra, 1 ≤ ra ∧
      (runRequests 30 60 ts []).1
        = List.replicate 30 RateOutcome.allowed ++ [RateOutcome.rejected ra] := by
  have hne : ts ≠ [] := by
    intro h
    rw [h] at hlen
    simp at hlen
  obtain ⟨ra, h1, h2⟩ :=
    runRequests_fill 30 60 (by norm_num) ts []
      (by simp [hlen]) hne (by intro y _ x hx; simp at hx) hwin
  refine ⟨ra, h1, ?_⟩
  rw [h2, hlen]

/-- C5 witness: thirty-one requests all issued at the same instant. -/
theorem rate_limit_threshold_spec_witness :
    ∃ ra, 1 ≤ ra ∧
      (runRequests 30 60 (List.replicate 31 (0 : ℚ)) []).1
        = List.replicate 30 RateOutcome.allowed ++ [RateOutcome.rejected ra] :=
  rate_limit_threshold_spec (List.replicate 31 0) (by simp)
    (fun x hx y hy => by
      rw [List.eq_of_mem_replicate hx, List.eq_of_mem_replicate hy]
      norm_num)

/-- C9: when the rate limiter rejects a request, the stored bucket becomes
exactly the pruned previous bucket — the rejected request's timestamp is
not recorded, only expired entries are removed (the new bucket is a
sublist of the old one) — and at every later instant the limiter behaves
exactly as if the rejected request had never been made, so consecutive
rejected requests never extend the time until the client is allowed
again. -/
theorem rate_limit_rejected_leaves_bucket (max_requests : Nat)
    (window_seconds now : ℚ) (bucket : List ℚ) (ra : Int)
    (h : (rate_limit_step max_requests window_seconds now bucket).1
          = RateOutcome.rejected ra) :
    (rate_limit_step max_requests window_seconds now bucket).2
      = pruneWindow window_seconds now bucket
    ∧ ((rate_limit_step max_requests window_seconds now bucket).2).Sublist bucket
    ∧ (∀ t, now ≤ t →
        rate_limit_step max_requests window_seconds t
            ((rate_limit_step max_requests window_seconds now bucket).2)
          = rate_limit_step max_requests window_seconds t bucket) := by
  have hsnd : (rate_limit_step max_requests window_seconds now bucket).2
      = pruneWindow window_seconds now bucket := by
    by_cases hc : max_requests ≤ (pruneWindow window_seconds now bucket).length
    · cases hh : (pruneWindow window_seconds now bucket).head? with
      | some oldest => simp [rate_limit_step, hc, hh]
      | none => simp [rate_limit_step, hc, hh]
    · exfalso
      simp [rate_limit_step, hc] at h
  refine ⟨hsnd, ?_, ?_⟩
  · rw [hsnd]
    exact List.filter_sublist _
  · intro t ht
    rw [hsnd]
    simp only [rate_limit_step, pruneWindow_pruneWindow window_seconds now t ht]

/-- C9 witness: a one-request limit with one stored timestamp rejects a
request ten seconds later and stores exactly the pruned bucket. -/
theorem rate_limit_rejected_leaves_bucket_witness :
    (rate_limit_step 1 60 10 [(0 : ℚ)]).2 = pruneWindow 60 10 [(0 : ℚ)] :=
  (rate_limit_rejected_leaves_bucket 1 60 10 [(0 : ℚ)]
    (max (truncInt ((0 : ℚ) + 60 - 10)) 1) (by
      have hp : pruneWindow 60 10 [(0 : ℚ)] = [(0 : ℚ)] := by
        unfold pruneWindow
        norm_num
      simp [rate_limit_step, hp])).1

/-! ## Lemmas about the health-status aggregation -/

/-- Aggregate is unhealthy exactly when some included status is. -/
theorem overallStatus_unhealthy_iff (l : List HealthStatus) :
    overallStatus l = .unhealthy ↔ HealthStatus.unhealthy ∈ l := by
  unfold overallStatus
  by_cases h : l.any (fun s => s == .unhealthy) = true
  · rw [if_pos h]
    simp only [List.any_eq_true, beq_iff_eq] at h
    obtain ⟨x, hx, hxe⟩ := h
    subst hxe
    simp [hx]
  · rw [if_neg h]
    simp only [List.any_eq_true, beq_iff_eq, not_exists] at h
    push_neg at h
    constructor
    · intro hcontra
      by_cases h2 : l.any (fun s => s == .degraded) = true
      · rw [if_pos h2] at hcontra
        exact absurd hcontra (by simp)
      · rw [if_neg h2] at hcontra
        exact absurd hcontra (by simp)
    · intro hmem
      exact absurd rfl (h _ hmem)

/-- Aggregate is degraded exactly when no included status is unhealthy but
some is degraded. -/
theorem overallStatus_degraded_iff (l : List HealthStatus) :
    overallStatus l = .degraded
      ↔ (HealthStatus.unhealthy ∉ l ∧ HealthStatus.degraded ∈ l) := by
  unfold overallStatus
  by_cases h : l.any (fun s => s == .unhealthy) = true
  · rw [if_pos h]
    simp only [List.any_eq_true, beq_iff_eq] at h
    obtain ⟨x, hx, hxe⟩ := h
    subst hxe
    constructor
    · intro hcontra
      exact absurd hcontra (by simp)
    · rintro ⟨hnu, -⟩
      exact absurd hx hnu
  · rw [if_neg h]
    simp only [List.any_eq_true, beq_iff_eq] at h
    push_neg at h
    have hnu : HealthStatus.unhealthy ∉ l := fun hmem => absurd rfl (h _ hmem)
    by_cases h2 : l.any (fun s => s == .degraded) = true
    · rw [if_pos h2]
      simp only [List.any_eq_true, beq_iff_eq] at h2
      obtain ⟨x, hx, hxe⟩ := h2
      subst hxe
      simp [hnu, hx]
    · rw [if_neg h2]
      simp only [List.any_eq_true, beq_iff_eq] at h2
      push_neg at h2
      constructor
      · intro hcontra
        exact absurd hcontra (by simp)
      · rintro ⟨-, hd⟩
        exact absurd rfl (h2 _ hd)

/-- Aggregate is healthy exactly when every included status is. -/
theorem overallStatus_healthy_iff (l : List HealthStatus) :
    overallStatus l = .healthy ↔ ∀ s ∈ l, s = HealthStatus.healthy := by
  unfold overallStatus
  by_cases h : l.any (fun s => s == .unhealthy) = true
  · rw [if_pos h]
    simp only [List.any_eq_true, beq_iff_eq] at h
    obtain ⟨x, hx, hxe⟩ := h
    subst hxe
    constructor
    · intro hcontra
      exact absurd hcontra (by simp)
    · intro hall
      exact absurd (hall _ hx) (by simp)
  · rw [if_neg h]
    simp only [List.any_eq_true, beq_iff_eq] at h
    push_neg at h
    by_cases h2 : l.any (fun s => s == .degraded) = true
    · rw [if_pos h2]
      simp only [List.any_eq_true, beq_iff_eq] at h2
      obtain ⟨x, hx, hxe⟩ := h2
      subst hxe
      constructor
      · intro hcontra
        exact absurd hcontra (by simp)
      · intro hall
        exact absurd (hall _ hx) (by simp)
    · rw [if_neg h2]
      simp only [List.any_eq_true, beq_iff_eq] at h2
      push_neg at h2
      constructor
      · intro _ s hs
        cases s with
        | healthy => rfl
        | degraded => exact absurd rfl (h2 _ hs)
        | unhealthy => exact absurd rfl (h _ hs)
      · intro _
        rfl

/-- Severities never exceed 2. -/
theorem foldr_max_severity_le_two (l : List HealthStatus) :
    (l.map severity).foldr max 0 ≤ 2 := by
  induction l with
  | nil => simp
  | cons s l ih =>
    simp only [List.map_cons, List.foldr_cons]
    have hs : severity s ≤ 2 := by cases s <;> simp [severity]
    exact max_le hs ih

/-- The aggregate's severity is the maximum severity of the statuses:
the aggregate is the worst status under unhealthy > degraded > healthy. -/
theorem severity_overallStatus (l : List HealthStatus) :
    severity (overallStatus l) = (l.map severity).foldr max 0 := by
  induction l with
  | nil => rfl
  | cons s l ih =>
    cases s with
    | unhealthy =>
      have h1 : overallStatus (HealthStatus.unhealthy :: l) = .unhealthy := by
        unfold overallStatus
        simp
      rw [h1]
      simp only [List.map_cons, List.foldr_cons, severity]
      exact (max_eq_left (foldr_max_severity_le_two l)).symm
    | degraded =>
      by_cases h : l.any (fun s => s == .unhealthy) = true
      · have h1 : overallStatus (HealthStatus.degraded :: l) = .unhealthy := by
          unfold overallStatus
          simp [List.any_cons, h]
        have h2 : overallStatus l = .unhealthy := by
          unfold overallStatus
          simp [h]
        rw [h1]
        simp only [List.map_cons, List.foldr_cons, severity]
        rw [← ih, h2]
        simp [severity]
      · have h1 : overallStatus (HealthStatus.degraded :: l) = .degraded := by
          unfold overallStatus
          simp [List.any_cons, h]
        have hF : (l.map severity).foldr max 0 ≤ 1 := by
          rw [← ih]
          unfold overallStatus
          rw [if_neg h]
          by_cases h2 : l.any (fun s => s == .degraded) = true
          · rw [if_pos h2]
            simp [severity]
          · rw [if_neg h2]
            simp [severity]
        rw [h1]
        simp only [List.map_cons, List.foldr_cons, severity]
        exact (max_eq_left hF).symm
    | healthy =>
      have h1 : overallStatus (HealthStatus.healthy :: l) = overallStatus l := by
        unfold overallStatus
        simp [List.any_cons]
      rw [h1, ih]
      simp only [List.map_cons, List.foldr_cons, severity]
      simp

/-- Projection identity tying the aggregate to the included checks. -/
theorem run_all_fst_eq (memory disk database openai : CheckResult)
    (include_external : Bool) :
    (run_all_health_checks memory disk database openai include_external).1
      = overallStatus
          ((run_all_health_checks memory disk database openai include_external).2.map
            CheckResult.status) := rfl

/-! ## Theorems and witnesses for C6 and C7 -/

/-- C6 (code bug): `get_standings` intends to rank within a wins tie by the
combined points-for (integer part plus decimal-hundredths/100) — the code
spells out `fpts + fpts_decimal/100` — but its select string omits the
`fpts_decimal` column, so the decimal contribution is always 0.  On two
teams with equal wins and equal integer fpts (800) whose decimal parts are
57 and 99, the combined points (800.57 vs 800.99) demand ranking roster 2
first, yet the code leaves the fetch order (roster 1 first) because both
computed points_for values collapse to 800. -/
theorem get_standings_ignores_decimal_points :
    (get_standings [tieRowA, tieRowB]).map StandingsEntry.roster_id = [1, 2]
    ∧ (get_standings [tieRowA, tieRowB]).map StandingsEntry.points_for = [800, 800]
    ∧ ((tieRowA.fpts.getD 0 : ℚ) + (tieRowA.fpts_decimal.getD 0 : ℚ) / 100
        < (tieRowB.fpts.getD 0 : ℚ) + (tieRowB.fpts_decimal.getD 0 : ℚ) / 100) := by
  have hr : standingsKeyGe (toStandingsEntry (selectStandingsRow tieRowA))
      (toStandingsEntry (selectStandingsRow tieRowB)) :=
    Or.inr ⟨rfl, le_refl _⟩
  have hsort : get_standings [tieRowA, tieRowB]
      = [toStandingsEntry (selectStandingsRow tieRowA),
         toStandingsEntry (selectStandingsRow tieRowB)] := by
    unfold get_standings
    simp [List.insertionSort, List.orderedInsert, hr]
  refine ⟨?_, ?_, ?_⟩
  · rw [hsort]
    rfl
  · rw [hsort]
    simp only [List.map_cons, List.map_nil, toStandingsEntry, selectStandingsRow,
      tieRowA, tieRowB]
    norm_num
  · simp only [tieRowA, tieRowB]
    norm_num

/-- C7: for every set of included health checks (memory and disk, plus
database and OpenAI when external checks are included), the aggregated
overall status is the worst of the individual statuses under
unhealthy > degraded > healthy: it is unhealthy exactly when some included
check is unhealthy, degraded exactly when none is unhealthy but some is
degraded, healthy exactly when all are healthy, and its severity is the
maximum of the included severities. -/
theorem run_all_health_checks_worst (memory disk database openai : CheckResult)
    (include_external : Bool) :
    ((run_all_health_checks memory disk database openai include_external).1
        = .unhealthy
      ↔ ∃ c ∈ (run_all_health_checks memory disk database openai include_external).2,
          c.status = HealthStatus.unhealthy)
    ∧ ((run_all_health_checks memory disk database openai include_external).1
        = .degraded
      ↔ ((∀ c ∈ (run_all_health_checks memory disk database openai include_external).2,
            c.status ≠ HealthStatus.unhealthy)
          ∧ ∃ c ∈ (run_all_health_checks memory disk database openai include_external).2,
              c.status = HealthStatus.degraded))
    ∧ ((run_all_health_checks memory disk database openai include_external).1
        = .healthy
      ↔ ∀ c ∈ (run_all_health_checks memory disk database openai include_external).2,
          c.status = HealthStatus.healthy)
    ∧ severity (run_all_health_checks memory disk database openai include_external).1
        = (((run_all_health_checks memory disk database openai include_external).2.map
            CheckResult.status).map severity).foldr max 0 := by
  refine ⟨?_, ?_, ?_, ?_⟩
  · rw [run_all_fst_eq, overallStatus_unhealthy_iff]
    simp [List.mem_map]
  · rw [run_all_fst_eq, overallStatus_degraded_iff]
    simp [List.mem_map]
  · rw [run_all_fst_eq, overallStatus_healthy_iff]
    simp [List.mem_map]
  · rw [run_all_fst_eq, severity_overallStatus]

/-- C7 witness: with a degraded disk check and no external checks, the
aggregate is degraded. -/
theorem run_all_health_checks_worst_witness :
    (run_all_health_checks ⟨HealthStatus.healthy, "Memory usage normal"⟩
        ⟨HealthStatus.degraded, "Low disk space"⟩
        ⟨HealthStatus.healthy, "Database connection OK"⟩
        ⟨HealthStatus.healthy, "OpenAI API accessible"⟩ false).1
      = .degraded :=
  ((run_all_health_checks_worst ⟨HealthStatus.healthy, "Memory usage normal"⟩
      ⟨HealthStatus.degraded, "Low disk space"⟩
      ⟨HealthStatus.healthy, "Database connection OK"⟩
      ⟨HealthStatus.healthy, "OpenAI API accessible"⟩ false).2.1).mpr
    (by constructor
        · intro c hc
          simp [run_all_health_checks] at hc
          rcases hc with h | h <;> subst h <;> simp
        · exact ⟨⟨HealthStatus.degraded, "Low disk space"⟩,
            by simp [run_all_health_checks], rfl⟩)

/-! ## Lemmas about trade participants -/

/-- Dict updates do not change the key list. -/
theorem updEntry_keys (k : Int) (f : TradeTeamEntry → TradeTeamEntry) :
    ∀ ts : List (Int × TradeTeamEntry),
      (updEntry k f ts).map Prod.fst = ts.map Prod.fst
  | [] => rfl
  | (k2, e) :: rest => by
    unfold updEntry
    by_cases h : k2 = k
    · simp [h]
    · simp [h, updEntry_keys k f rest]

/-- Folding any key-preserving update preserves the key list. -/
theorem foldl_keys_invariant {α : Type}
    (g : List (Int × TradeTeamEntry) → α → List (Int × TradeTeamEntry))
    (hg : ∀ ts a, (g ts a).map Prod.fst = ts.map Prod.fst) :
    ∀ (l : List α) (init : List (Int × TradeTeamEntry)),
      (l.foldl g init).map Prod.fst = init.map Prod.fst
  | [], _ => rfl
  | a :: l, init => by
    rw [List.foldl_cons, foldl_keys_invariant g hg l (g init a), hg]

/-- The draft-pick pass preserves the key list. -/
theorem processPick_keys (rosterMap : Int → String) (keys : List Int)
    (teams : List (Int × TradeTeamEntry)) (p : TxDraftPick) :
    (processPick rosterMap keys teams p).map Prod.fst = teams.map Prod.fst := by
  have h2 : (match p.owner_id with
      | some o =>
        if o ∈ keys then updEntry o (pushReceived (pickStr rosterMap p)) teams
        else teams
      | Option.none => teams).map Prod.fst = teams.map Prod.fst := by
    cases p.owner_id with
    | none => rfl
    | some o => by_cases h : o ∈ keys <;> simp [h, updEntry_keys]
  simp only [processPick]
  split
  · rw [updEntry_keys]
    exact h2
  · split
    · split
      · rw [updEntry_keys]
        exact h2
      · rw [updEntry_keys]
        exact h2
    · rw [updEntry_keys]
      exact h2
  · exact h2

/-- The key list of the rendered `teams_data` is exactly the participant
set. -/
theorem buildTeamsData_keys (rosterMap : Int → String)
    (playerMap : String → String) (t : SleeperTransaction) :
    (buildTeamsData rosterMap playerMap t).map Prod.fst = allRosterIds t := by
  have hadds : ∀ (ts : List (Int × TradeTeamEntry)) (kv : String × Int),
      ((if kv.2 ∈ allRosterIds t then
          updEntry kv.2 (pushReceived (playerMap kv.1)) ts else ts).map Prod.fst)
        = ts.map Prod.fst := by
    intro ts kv
    by_cases h : kv.2 ∈ allRosterIds t <;> simp [h, updEntry_keys]
  have hdrops : ∀ (ts : List (Int × TradeTeamEntry)) (kv : String × Int),
      ((if kv.2 ∈ allRosterIds t then
          updEntry kv.2 (pushGaveUp (playerMap kv.1)) ts else ts).map Prod.fst)
        = ts.map Prod.fst := by
    intro ts kv
    by_cases h : kv.2 ∈ allRosterIds t <;> simp [h, updEntry_keys]
  simp only [buildTeamsData]
  rw [foldl_keys_invariant _ (fun ts p => processPick_keys rosterMap (allRosterIds t) ts p)
      t.draft_picks,
    foldl_keys_invariant _ hdrops t.drops,
    foldl_keys_invariant _ hadds t.adds,
    List.map_map]
  exact List.map_id _

/-! ## Theorem and witness for C4 -/

/-- C4: for every complete trade transaction rendered by the shared
trade-reconstruction logic of `get_recent_trades` and
`get_player_trade_history`, every roster id appearing as a value of the
`adds` map, as a value of the `drops` map, or as the receiving owner of a
transferred draft pick (owner ids are genuine roster ids, hence nonzero)
appears exactly once among the keys of the rendered per-team entries: no
participant is omitted and none is duplicated. -/
theorem trade_participants_exactly_once (rosterMap : Int → String)
    (playerMap : String → String) (t : SleeperTransaction)
    (hOwners : ∀ p ∈ t.draft_picks, p.owner_id ≠ some 0) (r : Int)
    (hr : r ∈ t.adds.map Prod.snd ∨ r ∈ t.drops.map Prod.snd
          ∨ ∃ p ∈ t.draft_picks, p.owner_id = some r) :
    ((buildTeamsData rosterMap playerMap t).map Prod.fst).count r = 1 := by
  rw [buildTeamsData_keys]
  have hmem : r ∈ t.roster_ids ++ t.adds.map Prod.snd ++ t.drops.map Prod.snd
      ++ t.draft_picks.filterMap pickReceiver := by
    rcases hr with h | h | ⟨p, hp, hpr⟩
    · simp only [List.mem_append]
      exact Or.inl (Or.inl (Or.inr h))
    · simp only [List.mem_append]
      exact Or.inl (Or.inr h)
    · have hrecv : pickReceiver p = some r := by
        have hne : r ≠ 0 := fun h0 => hOwners p hp (h0 ▸ hpr)
        simp [pickReceiver, hpr, hne]
      simp only [List.mem_append]
      exact Or.inr (List.mem_filterMap.mpr ⟨p, hp, hrecv⟩)
  unfold allRosterIds
  rw [List.count_dedup, if_pos hmem]

/-- C4 witness: a two-team trade (rosters 3 and 4) with one player each
way and one traded 2026 first-round pick; roster 3 appears exactly once
among the rendered entries. -/
theorem trade_participants_exactly_once_witness :
    ((buildTeamsData (fun r => "Team " ++ toString r) (fun pid => "Player " ++ pid)
        ⟨"txn1", some 4, [3, 4], [("6786", 3)], [("6786", 4)],
         [⟨"2026", 1, some 4, some 3⟩]⟩).map Prod.fst).count 3 = 1 :=
  trade_participants_exactly_once (fun r => "Team " ++ toString r)
    (fun pid => "Player " ++ pid)
    ⟨"txn1", some 4, [3, 4], [("6786", 3)], [("6786", 4)],
     [⟨"2026", 1, some 4, some 3⟩]⟩
    (by decide) 3 (Or.inl (by decide))

/-! ## Lemmas about the fuzzy team search -/

/-- With all candidate scores zero, no match entries are produced. -/
theorem teamMatches_eq_nil (search : List Char) (rows : List RosterRow)
    (h : ∀ r ∈ rows, rowScore search r = 0) :
    teamMatches search rows = [] := by
  induction rows with
  | nil => rfl
  | cons r rows ih =>
    have hnone : toTeamMatch search r = Option.none := by
      simp only [toTeamMatch]
      simp [h r (by simp)]
    have hstep : teamMatches search (r :: rows) = teamMatches search rows := by
      unfold teamMatches
      simp only [List.filterMap_cons, hnone]
    rw [hstep]
    exact ih (fun x hx => h x (List.mem_cons_of_mem _ hx))

/-- A positive-scoring candidate contributes a match entry carrying its
score. -/
theorem toTeamMatch_pos (search : List Char) (r : RosterRow)
    (h : 0 < rowScore search r) :
    ∃ m, toTeamMatch search r = some m ∧ m.match_score = rowScore search r := by
  simp only [toTeamMatch]
  rw [if_pos h]
  exact ⟨_, rfl, rfl⟩

/-- The head of the sorted match list scores at least every candidate. -/
theorem sortedMatches_head_max (search : List Char) (rows : List RosterRow)
    (best : TeamMatch) (rest : List TeamMatch)
    (hms : sortedMatches search rows = best :: rest) :
    ∀ r ∈ rows, rowScore search r ≤ best.match_score := by
  intro r hr
  rcases Nat.eq_zero_or_pos (rowScore search r) with h0 | hpos
  · rw [h0]
    exact Nat.zero_le _
  · obtain ⟨m, hm, hscore⟩ := toTeamMatch_pos search r hpos
    have hmemM : m ∈ teamMatches search rows :=
      List.mem_filterMap.mpr ⟨r, hr, hm⟩
    have hmemS : m ∈ best :: rest := by
      rw [← hms]
      exact ((List.perm_insertionSort scoreGe (teamMatches search rows)).mem_iff).mpr hmemM
    have hsorted : (best :: rest).Sorted scoreGe := by
      rw [← hms]
      exact List.sorted_insertionSort scoreGe (teamMatches search rows)
    rcases List.mem_cons.mp hmemS with rfl | hmem2
    · rw [← hscore]
    · rw [← hscore]
      exact (List.sorted_cons.mp hsorted).1 m hmem2

/-- Evaluation: empty fetch. -/
theorem find_team_nil_rows (search : List Char) :
    find_team_by_name [] search
      = [TeamResult.err "No teams found in league" Option.none] := rfl

/-- Evaluation: no candidate matched. -/
theorem find_team_no_matches (rows : List RosterRow) (search : List Char)
    (hrows : rows ≠ []) (hms : sortedMatches search rows = []) :
    find_team_by_name rows search
      = [TeamResult.err
          ("No team found matching \x27" ++ String.mk search ++ "\x27")
          (some "Try using a different name or check the standings")] := by
  unfold find_team_by_name
  rw [if_neg hrows, hms]

/-- Evaluation: exactly one match. -/
theorem find_team_single (rows : List RosterRow) (search : List Char)
    (best : TeamMatch) (hrows : rows ≠ [])
    (hms : sortedMatches search rows = [best]) :
    find_team_by_name rows search = [TeamResult.found best] := by
  unfold find_team_by_name
  rw [if_neg hrows, hms]

/-- Evaluation: two or more matches. -/
theorem find_team_multi (rows : List RosterRow) (search : List Char)
    (best second : TeamMatch) (rest2 : List TeamMatch) (hrows : rows ≠ [])
    (hms : sortedMatches search rows = best :: second :: rest2) :
    find_team_by_name rows search
      = if 8 * best.match_score ≤ 10 * second.match_score then
          ((best :: second :: rest2).take 3).map TeamResult.found
        else [TeamResult.found best] := by
  unfold find_team_by_name
  rw [if_neg hrows, hms]

/-! ## Theorem and witness for C3 -/

/-- C3: for every search term, `find_team_by_name` returns a non-empty
list.  When no candidate scores above zero it returns a single-element
list containing an error marker (never an empty list).  When candidates
match, the returned head is a best-scoring match (no candidate scores
higher), the sorted match list is in descending score order, at most three
entries are returned, and exactly the single best match is returned unless
the second-best score is at least 80% of the best
(`8 * best ≤ 10 * second` in exact integer form), in which case the top
three (or fewer) candidates are returned in score-descending order. -/
theorem find_team_by_name_spec (rows : List RosterRow) (search : List Char) :
    find_team_by_name rows search ≠ []
    ∧ ((∀ r ∈ rows, rowScore search r = 0) →
        ∃ e sug, find_team_by_name rows search = [TeamResult.err e sug])
    ∧ (∀ best rest, sortedMatches search rows = best :: rest →
        (∀ r ∈ rows, rowScore search r ≤ best.match_score)
        ∧ (sortedMatches search rows).Sorted scoreGe
        ∧ (find_team_by_name rows search).length ≤ 3
        ∧ (rest = [] → find_team_by_name rows search = [TeamResult.found best])
        ∧ (∀ second rest2, rest = second :: rest2 →
            (8 * best.match_score ≤ 10 * second.match_score →
              find_team_by_name rows search
                = ((best :: second :: rest2).take 3).map TeamResult.found)
            ∧ (10 * second.match_score < 8 * best.match_score →
              find_team_by_name rows search = [TeamResult.found best]))) := by
  by_cases hrows : rows = []
  · subst hrows
    refine ⟨by rw [find_team_nil_rows]; simp,
      fun _ => ⟨_, _, find_team_nil_rows search⟩, ?_⟩
    intro best rest hms
    exact absurd hms (by simp [sortedMatches, teamMatches])
  · refine ⟨?_, ?_, ?_⟩
    · cases hms : sortedMatches search rows with
      | nil =>
        rw [find_team_no_matches rows search hrows hms]
        simp
      | cons best rest =>
        cases rest with
        | nil =>
          rw [find_team_single rows search best hrows hms]
          simp
        | cons second rest2 =>
          rw [find_team_multi rows search best second rest2 hrows hms]
          by_cases hc : 8 * best.match_score ≤ 10 * second.match_score
          · rw [if_pos hc]
            simp
          · rw [if_neg hc]
            simp
    · intro hall
      have hms : sortedMatches search rows = [] := by
        unfold sortedMatches
        rw [teamMatches_eq_nil search rows hall]
        rfl
      exact ⟨_, _, find_team_no_matches rows search hrows hms⟩
    · intro best rest hms
      refine ⟨sortedMatches_head_max search rows best rest hms,
        List.sorted_insertionSort scoreGe (teamMatches search rows), ?_, ?_, ?_⟩
      · cases rest with
        | nil =>
          rw [find_team_single rows search best hrows hms]
          simp
        | cons second rest2 =>
          rw [find_team_multi rows search best second rest2 hrows hms]
          by_cases hc : 8 * best.match_score ≤ 10 * second.match_score
          · rw [if_pos hc]
            rw [List.length_map, List.length_take]
            exact min_le_left _ _
          · rw [if_neg hc]
            simp
      · intro hrest
        subst hrest
        exact find_team_single rows search best hrows hms
      · intro second rest2 hrest
        subst hrest
        constructor
        · intro hc
          rw [find_team_multi rows search best second rest2 hrows hms, if_pos hc]
        · intro hc
          rw [find_team_multi rows search best second rest2 hrows hms,
            if_neg (by omega)]

/-- C3 witness: the search term "zzz" scores zero against the fixture row
for "The Jaxon 5", and the result is a single error marker. -/
theorem find_team_by_name_spec_witness :
    ∃ e sug, find_team_by_name [jaxRow] "zzz".data = [TeamResult.err e sug] :=
  (find_team_by_name_spec [jaxRow] "zzz".data).2.1 (by decide)
